import Mathlib

/-!
Verification of the evaluation-harness core (orchestrator, registries,
results store, truncation memory) against its specification.

The Python sources are shallowly embedded: pure functions become Lean
functions, dictionaries become association lists or structures whose
fields mirror the dictionary keys, raised exceptions become `Except`
errors, and wall-clock readings (`datetime.now()`) become explicit
parameters.  Strings are manipulated at the level of their character
lists so that Python's whitespace `str.split` can be modelled exactly.
-/

/-! ### Truncation memory (`src/memory/methods/truncation_memory.py`)

`TruncationMemory.process` tokenizes with Python's argument-free
`str.split`, which splits on runs of whitespace and drops empty pieces.
A character counts as whitespace there exactly when
`Py_UNICODE_ISSPACE` holds: the code points 09-0D (tab, newline,
vertical tab, form feed, carriage return), 1C-1F (the file, group,
record and unit separators), 20 (space), 85 (next line), A0 (no-break
space), 1680 (ogham space mark), 2000-200A (the en/em/figure/... space
block), 2028 and 2029 (line and paragraph separators), 202F
(narrow no-break space), 205F (medium mathematical space) and 3000
(ideographic space); `isPySpace` reproduces that set. -/

def isPySpace (c : Char) : Bool :=
  (9 ≤ c.toNat && c.toNat ≤ 13) || (28 ≤ c.toNat && c.toNat ≤ 31)
    || c.toNat = 32 || c.toNat = 0x85 || c.toNat = 0xa0
    || c.toNat = 0x1680 || (0x2000 ≤ c.toNat && c.toNat ≤ 0x200a)
    || c.toNat = 0x2028 || c.toNat = 0x2029 || c.toNat = 0x202f
    || c.toNat = 0x205f || c.toNat = 0x3000

/-- Worker for `pySplit`: `acc` holds the characters of the token
currently being read, in reverse order. -/
def pySplitAcc (acc : List Char) : List Char → List (List Char)
  | [] => if acc.isEmpty then [] else [acc.reverse]
  | c :: cs =>
    if isPySpace c then
      if acc.isEmpty then pySplitAcc [] cs
      else acc.reverse :: pySplitAcc [] cs
    else
      pySplitAcc (c :: acc) cs

/-- Python `text.split()` on a character list: split on runs of
whitespace, discarding empty tokens. -/
def pySplit (l : List Char) : List (List Char) :=
  pySplitAcc [] l

/-- Python `' '.join(tokens)` on character lists. -/
def joinSpace : List (List Char) → List Char
  | [] => []
  | [t] => t
  | t :: ts => t ++ ' ' :: joinSpace ts

/-- Embedding of `TruncationMemory.process(text, max_tokens=maxTokens)`: whitespace
tokenization, empty-token-list short circuit, untouched when the token
count fits the budget, otherwise the first `maxTokens` tokens rejoined
with single spaces. -/
def truncationProcess (maxTokens : Nat) (text : List Char) : List Char :=
  let tokens := pySplit text
  if tokens = [] then
    []
  else if tokens.length ≤ maxTokens then
    text
  else
    joinSpace (tokens.take maxTokens)

/-! ### Configuration and model specs (`src/evaluation/orchestrator.py`)

TOML / JSON-like configuration values are embedded as `JValue`.
Dictionaries are association lists, keeping Python's (insertion)
iteration order. -/

inductive JValue : Type where
  | null : JValue
  | bool : Bool → JValue
  | int : Int → JValue
  | str : String → JValue
  | arr : List JValue → JValue
  | obj : List (String × JValue) → JValue

/-- One `[providers.{name}]` section, already a mapping.  Per the code
(`provider_config.get("models", [])` / `.get("enabled_models", [])`)
an absent key behaves as the empty list; `extra` holds every other key
of the section, in order (no claim inspects a setting's value, so
setting values are embedded opaquely as strings). -/
structure ProviderConfig : Type where
  models : List String
  enabled_models : List String
  extra : List (String × String)
deriving DecidableEq

/-- A value sitting under the `providers` mapping: either a mapping
(`ProviderConfig`) or any non-mapping value, which
`_parse_model_specs` skips (`if not isinstance(provider_config, dict):
continue`). -/
inductive ProviderEntry : Type where
  | dict : ProviderConfig → ProviderEntry
  | nonDict : ProviderEntry
deriving DecidableEq

/-- The configuration dictionary handed to `EvaluationOrchestrator`.
`none` on an optional field models an absent key. -/
structure Config : Type where
  providers : List (String × ProviderEntry)
  memory_methods : Option (List String)
  executed_benchmarks : Option (List String)
  concurrent_evaluations : Option Int
deriving DecidableEq

/-- One entry of the list built by `_parse_model_specs`:
`{"name": ..., "provider": ..., "config": ...}`. -/
structure ModelSpec : Type where
  name : String
  provider : String
  config : List (String × String)
deriving DecidableEq

/-- The loop body of `_parse_model_specs`: walks the providers mapping
in order, skips non-mapping entries, raises on an enabled model absent
from the available list, and otherwise emits one `ModelSpec` per
enabled model (provider settings minus the two model-list keys). -/
def parseProviders : List (String × ProviderEntry) → Except String (List ModelSpec)
  | [] => .ok []
  | (_, .nonDict) :: rest => parseProviders rest
  | (pname, .dict cfg) :: rest =>
    if cfg.enabled_models.all (fun m => m ∈ cfg.models) then
      match parseProviders rest with
      | .error e => .error e
      | .ok restSpecs =>
        .ok ((cfg.enabled_models.map fun m =>
          ⟨m, pname, cfg.extra⟩ : List ModelSpec) ++ restSpecs)
    else
      .error ("Provider \x27" ++ pname ++ "\x27 has invalid enabled models.")

/-- Embedding of `EvaluationOrchestrator._parse_model_specs`: raises when the
providers mapping is empty, when some provider has an enabled model
outside its available models, or when no model ends up enabled. -/
def parseModelSpecs (cfg : Config) : Except String (List ModelSpec) :=
  if cfg.providers.isEmpty then
    .error "No providers configured. Please add [providers.\x7bname\x7d] sections to config."
  else
    match parseProviders cfg.providers with
    | .error e => .error e
    | .ok models =>
      if models.isEmpty then
        .error "No models enabled. Please set enabled_models for at least one provider."
      else
        .ok models

/-- The orchestrator state after `__init__` (the fields the run plan
depends on). -/
structure Orchestrator : Type where
  model_specs : List ModelSpec
  memory_methods : List String
  benchmarks : List String
  concurrent_evaluations : Int
deriving DecidableEq

/-- Embedding of `EvaluationOrchestrator.__init__`, restricted to its pure
configuration handling: `_parse_model_specs` may raise; the memory
method list defaults to `["truncation"]`, the benchmark list to `[]`,
the concurrency bound to `1`.  (`ModelRegistry.load_from_config()` and
`_register_benchmarks_from_config` touch the file system and the
process-wide registries only; they perform no validation of the three
collections and are not modelled.) -/
def orchestratorInit (cfg : Config) : Except String Orchestrator :=
  match parseModelSpecs cfg with
  | .error e => .error e
  | .ok specs =>
    .ok { model_specs := specs
          memory_methods := cfg.memory_methods.getD ["truncation"]
          benchmarks := cfg.executed_benchmarks.getD []
          concurrent_evaluations := cfg.concurrent_evaluations.getD 1 }

/-- Embedding of `EvaluationOrchestrator._generate_combinations`:
`itertools.product(model_specs, memory_methods, benchmarks)`, i.e. the
nested-loop cross product with the model index varying slowest. -/
def generateCombinations (model_specs : List ModelSpec)
    (memory_methods benchmarks : List String) :
    List (ModelSpec × String × String) :=
  model_specs.flatMap fun ms =>
    memory_methods.flatMap fun mem =>
      benchmarks.map fun b => (ms, mem, b)

/-! ### Single-run execution and error isolation
(`src/evaluation/orchestrator.py`)

The body of `_run_single_evaluation` calls four potentially raising
operations (model creation, memory-method creation, benchmark
creation, `run_benchmark`).  Their behaviour depends on the outside
world, so they are parameters of the embedding, each returning
`Except PyException`; a raised Python exception is embedded as its
class name plus message.  Wall-clock readings (`datetime.now()`) are
likewise parameters. -/

structure PyException : Type where
  type : String
  message : String
deriving DecidableEq

/-- The `error_context` dictionary built in
`_run_single_evaluation_with_error_handling`. -/
structure ErrorContext : Type where
  model : String
  provider : String
  memory_method : String
  benchmark : String
  error_type : String
  error_message : String
deriving DecidableEq

/-- An `EvaluationResult` dictionary.  Success results
(`_run_single_evaluation`) have keys timestamp, duration_seconds,
model, memory_method, benchmark, results, status; error results
(`_create_error_result`) have keys timestamp, model, memory_method,
benchmark, error, status.  `none` models an absent key. -/
structure EvalResult : Type where
  timestamp : String
  duration_seconds : Option Rat
  model : ModelSpec
  memory_method : String
  benchmark : String
  results : Option JValue
  error : Option ErrorContext
  status : String

/-- The four fallible operations invoked by `_run_single_evaluation`,
over opaque instance types for models, memory methods and benchmark
adapters. -/
structure ExecEnv (μ ν β : Type) : Type where
  createModel : ModelSpec → Except PyException μ
  createMemory : String → Except PyException ν
  createBenchmark : String → μ → ν → Except PyException β
  runBenchmark : β → Except PyException JValue

/-- Embedding of `EvaluationOrchestrator._run_single_evaluation`: run the four
steps in order, propagating the first exception, and on success build
the success-status result dictionary. -/
def runSingleEvaluation {μ ν β : Type} (env : ExecEnv μ ν β)
    (startTime : String) (dur : Rat) (ms : ModelSpec)
    (mem bench : String) : Except PyException EvalResult :=
  match env.createModel ms with
  | .error e => .error e
  | .ok model =>
    match env.createMemory mem with
    | .error e => .error e
    | .ok memory =>
      match env.createBenchmark bench model memory with
      | .error e => .error e
      | .ok binst =>
        match env.runBenchmark binst with
        | .error e => .error e
        | .ok payload =>
          .ok { timestamp := startTime
                duration_seconds := some dur
                model := ms
                memory_method := mem
                benchmark := bench
                results := some payload
                error := none
                status := "success" }

/-- Embedding of `EvaluationOrchestrator._create_error_result`: note that the
resulting dictionary has no `duration_seconds` key and that its
timestamp is taken when the error result is created. -/
def createErrorResult (errTime : String) (ms : ModelSpec)
    (mem bench : String) (err : ErrorContext) : EvalResult :=
  { timestamp := errTime
    duration_seconds := none
    model := ms
    memory_method := mem
    benchmark := bench
    results := none
    error := some err
    status := "error" }

/-- Embedding of `EvaluationOrchestrator._run_single_evaluation_with_error_handling`:
any exception from the single-run body is caught and converted into an
error-status result carrying the exception kind, message and the
combination's identifying names. -/
def runSingleWithErrorHandling {μ ν β : Type} (env : ExecEnv μ ν β)
    (startTime errTime : String) (dur : Rat) (ms : ModelSpec)
    (mem bench : String) : EvalResult :=
  match runSingleEvaluation env startTime dur ms mem bench with
  | .ok r => r
  | .error e =>
    createErrorResult errTime ms mem bench
      ⟨ms.name, ms.provider, mem, bench, e.type, e.message⟩

/-- The summary dictionary built by `_generate_summary`.  (Python's
`list(set(...))` iterates a hash set in unspecified order; the three
`*_tested` lists are embedded as first-occurrence deduplication.) -/
structure Summary : Type where
  timestamp : String
  total_runs : Nat
  successful_runs : Nat
  failed_runs : Nat
  success_rate : Rat
  results : List EvalResult
  models_tested : List String
  memory_methods_tested : List String
  benchmarks_tested : List String

/-- Embedding of `EvaluationOrchestrator._generate_summary`. -/
def generateSummary (now : String) (results : List EvalResult) : Summary :=
  let successful := results.filter fun r => r.status == "success"
  let failed := results.filter fun r => r.status == "error"
  { timestamp := now
    total_runs := results.length
    successful_runs := successful.length
    failed_runs := failed.length
    success_rate :=
      if results.isEmpty then 0
      else (successful.length : Rat) / (results.length : Rat)
    results := results
    models_tested := (results.map fun r => r.model.name).dedup
    memory_methods_tested := (results.map fun r => r.memory_method).dedup
    benchmarks_tested := (results.map fun r => r.benchmark).dedup }

/-- Embedding of `EvaluationOrchestrator.run_full_evaluation`: list the
combinations, run each through the failure boundary, and summarize.
Both execution paths produce the result list in plan order (the
sequential loop appends in order; `asyncio.gather` returns results in
task order), so a single result list models both.  Incremental
`save_result` calls are modelled separately with the results store. -/
def runFullEvaluation {μ ν β : Type} (env : ExecEnv μ ν β)
    (startTime errTime summaryTime : String) (dur : Rat)
    (orch : Orchestrator) : Summary :=
  let combos := generateCombinations orch.model_specs
    orch.memory_methods orch.benchmarks
  generateSummary summaryTime
    (combos.map fun c =>
      runSingleWithErrorHandling env startTime errTime dur c.1 c.2.1 c.2.2)

/-! ### Results store (`src/evaluation/results.py`)

The SQLite `evaluation_runs` table is embedded as a list of rows in
insertion order.  `AUTOINCREMENT` identifiers are a monotone counter
(never reused); the store-assigned `created_at` column is a monotone
tick so that `ORDER BY created_at DESC` is the reverse of insertion
order.  The `results_json` TEXT column holds
`json.dumps(result.get("results", {}))`; the standard library's
`json.dumps`/`json.loads` pair is modelled at the value level (the
column holds the JSON value the text denotes), so the serialization
round trip is the identity on `JValue`.  `json.dumps` never produces
empty text, so the guard `json.loads(row[8]) if row[8] else {}` always
takes its first branch on saved rows. -/

/-- The `result.get("model", ...)` entry handed to `save_result`:
either a mapping (only its `name`/`provider` keys are consulted, each
possibly absent) or a non-mapping value, embedded by its `str()`
rendering. -/
inductive ModelInfo : Type where
  | dict : Option String → Option String → ModelInfo
  | nonDict : String → ModelInfo
deriving DecidableEq

/-- The dictionary handed to `ResultsStorage.save_result`; `none`
models an absent key. -/
structure ResultDict : Type where
  timestamp : Option String
  model : Option ModelInfo
  memory_method : Option String
  benchmark : Option String
  status : Option String
  duration_seconds : Option Rat
  results : Option JValue

/-- One row of `evaluation_runs`. -/
structure StoredRun : Type where
  id : Nat
  timestamp : String
  model_name : String
  model_provider : String
  memory_method : String
  benchmark : String
  status : String
  duration_seconds : Option Rat
  results_json : JValue
  created_at : Nat

/-- The storage state: rows in insertion order plus the
auto-increment and creation-time counters. -/
structure ResultsStorage : Type where
  rows : List StoredRun
  next_id : Nat
  clock : Nat

/-- A freshly initialized database (`_initialize_database`). -/
def emptyStorage : ResultsStorage :=
  { rows := [], next_id := 1, clock := 0 }

/-- Embedding of `ResultsStorage.save_result`.  Field extraction follows the code:
`model_name` is `model_info.get("name")` for a mapping (possibly
`None`) and `str(model_info)` otherwise; `model_provider` is
`model_info.get("provider", "unknown")` for a mapping and `"unknown"`
otherwise; an absent `model` key behaves as the empty mapping.  The
`model_name` column is declared `NOT NULL`, so binding `None` there
makes the insert raise (`sqlite3.IntegrityError`), which `save_result`
re-raises after rollback. -/
def save_result (db : ResultsStorage) (now : String) (r : ResultDict) :
    Except String (Nat × ResultsStorage) :=
  let mname : Option String :=
    match r.model with
    | none => none
    | some (.dict n _) => n
    | some (.nonDict s) => some s
  let mprov : String :=
    match r.model with
    | none => "unknown"
    | some (.dict _ p) => p.getD "unknown"
    | some (.nonDict _) => "unknown"
  match mname with
  | none => .error "NOT NULL constraint failed: evaluation_runs.model_name"
  | some mn =>
    let row : StoredRun :=
      { id := db.next_id
        timestamp := r.timestamp.getD now
        model_name := mn
        model_provider := mprov
        memory_method := r.memory_method.getD "unknown"
        benchmark := r.benchmark.getD "unknown"
        status := r.status.getD "unknown"
        duration_seconds := r.duration_seconds
        results_json := r.results.getD (JValue.obj [])
        created_at := db.clock }
    .ok (db.next_id,
      { rows := db.rows ++ [row], next_id := db.next_id + 1,
        clock := db.clock + 1 })

/-- The record dictionary returned by `get_result` and by each entry
of `query_results`. -/
structure StoredRecord : Type where
  id : Nat
  timestamp : String
  model_name : String
  model_provider : String
  memory_method : String
  benchmark : String
  status : String
  duration_seconds : Option Rat
  results : JValue
  created_at : Nat

/-- Row-to-record conversion shared by `get_result` and
`query_results` (`results` is `json.loads(row[8])`). -/
def rowToRecord (row : StoredRun) : StoredRecord :=
  { id := row.id
    timestamp := row.timestamp
    model_name := row.model_name
    model_provider := row.model_provider
    memory_method := row.memory_method
    benchmark := row.benchmark
    status := row.status
    duration_seconds := row.duration_seconds
    results := row.results_json
    created_at := row.created_at }

/-- Embedding of `ResultsStorage.get_result`: point lookup by identifier
(`WHERE id = ?`). -/
def get_result (db : ResultsStorage) (i : Nat) : Option StoredRecord :=
  (db.rows.find? fun row => row.id == i).map rowToRecord

/-- One optional filter of `query_results`: Python appends the
`AND column = ?` clause only under `if value:`, so `None` and the
empty string both impose no constraint. -/
def filterOk (f : Option String) (v : String) : Bool :=
  match f with
  | none => true
  | some s => s.isEmpty || v == s

/-- The conjunction of the five optional filters against one row. -/
def rowMatches (mn mp mm bm st : Option String) (row : StoredRun) : Bool :=
  filterOk mn row.model_name && filterOk mp row.model_provider &&
    filterOk mm row.memory_method && filterOk bm row.benchmark &&
    filterOk st row.status

/-- Embedding of `ResultsStorage.query_results`: filtered rows, `ORDER BY
created_at DESC` (reverse of insertion order, since `created_at` is a
monotone tick here), then the `LIMIT` clause.  Python appends `LIMIT ?`
only under `if limit:`, so a limit of `0` is dropped as falsy; a
negative limit reaches SQLite, where a negative `LIMIT` means
unlimited — either way no truncation happens unless `limit > 0`. -/
def query_results (db : ResultsStorage) (mn mp mm bm st : Option String)
    (limit : Option Int) : List StoredRecord :=
  let matched := db.rows.filter (rowMatches mn mp mm bm st)
  let ordered := matched.reverse
  let limited :=
    match limit with
    | none => ordered
    | some k => if k ≤ 0 then ordered else ordered.take k.toNat
  limited.map rowToRecord

/-- The summary dictionary of `ResultsStorage.get_summary` (the
`database_path` entry is file-system state and is not modelled). -/
structure StorageSummary : Type where
  total_runs : Nat
  successful_runs : Nat
  failed_runs : Nat
  success_rate : Rat
  models : List String
  memory_methods : List String
  benchmarks : List String

/-- Embedding of `ResultsStorage.get_summary`: counts, the guarded success rate,
and the three `SELECT DISTINCT` lists. -/
def storageGetSummary (db : ResultsStorage) : StorageSummary :=
  let total := db.rows.length
  let succeeded := (db.rows.filter fun row => row.status == "success").length
  let failed := (db.rows.filter fun row => row.status == "error").length
  { total_runs := total
    successful_runs := succeeded
    failed_runs := failed
    success_rate :=
      if total > 0 then (succeeded : Rat) / (total : Rat) else 0
    models := (db.rows.map fun row => row.model_name).dedup
    memory_methods := (db.rows.map fun row => row.memory_method).dedup
    benchmarks := (db.rows.map fun row => row.benchmark).dedup }

/-! ### Component registries (`src/memory/registry.py`,
`src/models/registry.py`, `BenchmarkRegistry` in
`src/evaluation/orchestrator.py`)

Each registry is a Python class-level dictionary from names to factory
classes; a dictionary is embedded as an association list with unique
keys in insertion order.  `create_*` instantiates the factory with the
call's keyword arguments; instantiation itself is opaque here, so the
embedding returns the factory that would be instantiated. -/

/-- Python `d[name] = value` on a dictionary: replace in place when the
key exists, append otherwise. -/
def dictSet {φ : Type} : List (String × φ) → String → φ → List (String × φ)
  | [], k, v => [(k, v)]
  | (k0, v0) :: rest, k, v =>
    if k0 = k then (k, v) :: rest else (k0, v0) :: dictSet rest k v

/-- Embedding of `MemoryRegistry.create_method`: raise when the name is absent; the
message names only the missing method. -/
def memoryCreateMethod {φ : Type} (methods : List (String × φ))
    (name : String) : Except String φ :=
  match methods.lookup name with
  | none => .error ("Memory method \x27" ++ name ++ "\x27 not registered")
  | some f => .ok f

/-- Embedding of `MemoryRegistry.register_method`. -/
def memoryRegisterMethod {φ : Type} (methods : List (String × φ))
    (name : String) (f : φ) : List (String × φ) :=
  dictSet methods name f

/-- Python `repr` of a list of strings, as interpolated by the
f-string in `ModelRegistry.create_model`. -/
def pyStrListReprCore : List String → String
  | [] => ""
  | [s] => "\x27" ++ s ++ "\x27"
  | s :: rest@(_ :: _) => "\x27" ++ s ++ "\x27, " ++ pyStrListReprCore rest

/-- Python `str` of a list of strings. -/
def pyStrListRepr (names : List String) : String :=
  "[" ++ pyStrListReprCore names ++ "]"

/-- Embedding of `ModelRegistry.create_model`: raise when the provider is absent;
the message appends the rendered list of registered provider names.
(The model-name catalog check only logs a warning and never raises.) -/
def modelCreateModel {φ : Type} (provs : List (String × φ))
    (provider : String) : Except String φ :=
  match provs.lookup provider with
  | none =>
    .error ("Provider \x27" ++ provider ++ "\x27 is not registered. Available: "
      ++ pyStrListRepr (provs.map fun p => p.1))
  | some f => .ok f

/-- Embedding of `ModelRegistry.register_provider`. -/
def modelRegisterProvider {φ : Type} (provs : List (String × φ))
    (name : String) (f : φ) : List (String × φ) :=
  dictSet provs name f

/-- Embedding of `BenchmarkRegistry.create_benchmark`: raise when the name is
absent; the message names only the missing benchmark. -/
def benchmarkCreateBenchmark {φ : Type} (benchs : List (String × φ))
    (name : String) : Except String φ :=
  match benchs.lookup name with
  | none => .error ("Benchmark \x27" ++ name ++ "\x27 not registered")
  | some f => .ok f

/-- Embedding of `BenchmarkRegistry.register_benchmark`. -/
def benchmarkRegisterBenchmark {φ : Type} (benchs : List (String × φ))
    (name : String) (f : φ) : List (String × φ) :=
  dictSet benchs name f

/-! ### Substring occurrence

Used to state "the error message lists the registered names". -/

/-- Tests whether `needle` is a leading run of `hay`. -/
def charsLeadWith : List Char → List Char → Bool
  | [], _ => true
  | _ :: _, [] => false
  | a :: as, b :: bs => a == b && charsLeadWith as bs

/-- Tests whether `needle` occurs contiguously somewhere in `hay`. -/
def charsOccur (needle : List Char) : List Char → Bool
  | [] => charsLeadWith needle []
  | c :: rest => charsLeadWith needle (c :: rest) || charsOccur needle rest

/-- Substring occurrence on strings. -/
def strOccurs (needle hay : String) : Bool :=
  charsOccur needle.data hay.data

/-! ## Helper lemmas -/

theorem pySplitAcc_ne_nil (l : List Char) :
    ∀ acc : List Char, acc ≠ [] → pySplitAcc acc l ≠ [] := by
  induction l with
  | nil =>
    intro acc h
    simp [pySplitAcc, h]
  | cons c cs ih =>
    intro acc h
    by_cases hc : isPySpace c
    · simp [pySplitAcc, hc, h]
    · simp only [pySplitAcc, hc, if_false]
      exact ih (c :: acc) (by simp)

theorem pySplit_eq_nil_iff (l : List Char) :
    pySplit l = [] ↔ l.all isPySpace := by
  unfold pySplit
  induction l with
  | nil => simp [pySplitAcc]
  | cons c cs ih =>
    by_cases hc : isPySpace c
    · simp [pySplitAcc, hc, ih]
    · simp only [pySplitAcc, hc, if_false]
      constructor
      · intro h
        exact absurd h (pySplitAcc_ne_nil cs [c] (by simp))
      · intro h
        rw [List.all_cons, Bool.and_eq_true] at h
        exact absurd h.1 hc

/-! ## Claims -/

/-- C3: `TruncationMemory.process` edge cases and truncation law.
Empty or whitespace-only input (all characters whitespace) yields the
empty string; a zero budget yields the empty string for any non-empty
input; input with at least one token and at most `maxTokens` tokens is
returned verbatim (whitespace runs preserved); input with more tokens
than the budget yields the first `maxTokens` tokens rejoined with
single spaces; and the spec's two concrete cases evaluate as stated.
(The unchanged case carries a "has at least one token" proviso because
the claim's own first case sends whitespace-only input — zero tokens —
to the empty string.) -/
theorem truncation_process_ok (text : List Char) (maxTokens : Nat) :
    (text.all isPySpace → truncationProcess maxTokens text = [])
    ∧ (text ≠ [] → truncationProcess 0 text = [])
    ∧ (pySplit text ≠ [] → (pySplit text).length ≤ maxTokens →
        truncationProcess maxTokens text = text)
    ∧ ((pySplit text).length > maxTokens →
        truncationProcess maxTokens text =
          joinSpace ((pySplit text).take maxTokens))
    ∧ truncationProcess 5 "This is a long text that should be truncated".data
        = "This is a long text".data
    ∧ truncationProcess 1 "Multiple words here".data = "Multiple".data := by
  refine ⟨?_, ?_, ?_, ?_, by decide, by decide⟩
  · intro h
    have hnil : pySplit text = [] := (pySplit_eq_nil_iff text).mpr h
    simp [truncationProcess, hnil]
  · intro _
    by_cases hnil : pySplit text = []
    · simp [truncationProcess, hnil]
    · have hlen : ¬ (pySplit text).length ≤ 0 := by
        simp [List.length_eq_zero]
        exact hnil
      simp [truncationProcess, hnil, hlen, joinSpace]
  · intro hnil hle
    simp [truncationProcess, hnil, hle]
  · intro hgt
    have hnil : pySplit text ≠ [] := by
      intro h
      rw [h] at hgt
      simp at hgt
    simp [truncationProcess, hnil, Nat.not_le.mpr hgt]

/-- Concrete instantiation of `truncation_process_ok` (text `"a  b c"`,
budget `2`), discharging each hypothesis. -/
theorem truncation_process_ok_witness :
    truncationProcess 3 "  ".data = []
    ∧ truncationProcess 0 "a  b c".data = []
    ∧ truncationProcess 3 "a  b c".data = "a  b c".data
    ∧ truncationProcess 2 "a  b c".data =
        joinSpace ((pySplit "a  b c".data).take 2) := by
  refine ⟨(truncation_process_ok "  ".data 3).1 (by decide),
    (truncation_process_ok "a  b c".data 0).2.1 (by decide),
    (truncation_process_ok "a  b c".data 3).2.2.1 (by decide) (by decide),
    (truncation_process_ok "a  b c".data 2).2.2.2.1 (by decide)⟩

theorem flatMap_map_eq_product {α β γ : Type} (m : γ) (mems : List α)
    (benchs : List β) :
    (mems.flatMap fun mem => benchs.map fun b => (m, mem, b)) =
      (mems ×ˢ benchs).map (Prod.mk m) := by
  induction mems with
  | nil => rfl
  | cons mem rest ih =>
    simp only [List.flatMap_cons, ih, List.product_cons, List.map_append,
      List.map_map]
    rfl

theorem generateCombinations_eq_product
    (models : List ModelSpec) (mems benchs : List String) :
    generateCombinations models mems benchs = models ×ˢ (mems ×ˢ benchs) := by
  unfold generateCombinations
  induction models with
  | nil => rfl
  | cons m ms ih =>
    simp only [List.flatMap_cons, ih, List.product_cons]
    rw [flatMap_map_eq_product]

theorem count_combination_bridge (x : ModelSpec × String × String) :
    ∀ l : List (ModelSpec × String × String),
      l.count x = @List.count _ instBEqOfDecidableEq x l := by
  intro l
  induction l with
  | nil => rfl
  | cons y t ih =>
    simp only [List.count_cons, ih]
    by_cases h : y = x
    · simp [h, instBEqOfDecidableEq]
    · have h1 : (y == x) = false := by simp [h]
      have h2 : (@BEq.beq _ instBEqOfDecidableEq y x) = false := by
        simp [instBEqOfDecidableEq, h]
      rw [h1, h2]

/-- C1: the run plan built by `_generate_combinations` is the full
cross product: it has exactly `P × M × B` entries, a triple belongs to
it exactly when its three components are configured, under
duplicate-free source collections every configured triple appears
exactly once, and the plan is a deterministic function of the three
source lists (nested loops, model index slowest), so identical
configurations yield identical orderings. -/
theorem generate_combinations_cross_product
    (models : List ModelSpec) (mems benchs : List String) :
    (generateCombinations models mems benchs).length =
      models.length * mems.length * benchs.length
    ∧ (∀ (ms : ModelSpec) (mem b : String),
        (ms, mem, b) ∈ generateCombinations models mems benchs ↔
          ms ∈ models ∧ mem ∈ mems ∧ b ∈ benchs)
    ∧ (models.Nodup → mems.Nodup → benchs.Nodup →
        ∀ (ms : ModelSpec) (mem b : String),
          ms ∈ models → mem ∈ mems → b ∈ benchs →
          (generateCombinations models mems benchs).count (ms, mem, b) = 1)
    ∧ generateCombinations models mems benchs =
        models.flatMap fun ms => mems.flatMap fun mem =>
          benchs.map fun b => (ms, mem, b) := by
  refine ⟨?_, ?_, ?_, rfl⟩
  · rw [generateCombinations_eq_product, List.length_product,
      List.length_product, Nat.mul_assoc]
  · intro ms mem b
    rw [generateCombinations_eq_product, List.mem_product, List.mem_product]
  · intro h1 h2 h3 ms mem b hm hmem hb
    rw [generateCombinations_eq_product, count_combination_bridge]
    exact List.count_eq_one_of_mem (h1.product (h2.product h3))
      (List.mem_product.mpr ⟨hm, List.mem_product.mpr ⟨hmem, hb⟩⟩)

/-- Concrete instantiation of `generate_combinations_cross_product`:
two models, two memory methods, one benchmark. -/
theorem generate_combinations_cross_product_witness :
    (generateCombinations
        [⟨"m1", "p", []⟩, ⟨"m2", "p", []⟩] ["t", "s"] ["b"]).length = 4
    ∧ ((⟨"m2", "p", []⟩, "t", "b") ∈
        generateCombinations [⟨"m1", "p", []⟩, ⟨"m2", "p", []⟩] ["t", "s"] ["b"])
    ∧ (generateCombinations
        [⟨"m1", "p", []⟩, ⟨"m2", "p", []⟩] ["t", "s"] ["b"]).count
          (⟨"m2", "p", []⟩, "t", "b") = 1 := by
  have h := generate_combinations_cross_product
    [⟨"m1", "p", []⟩, ⟨"m2", "p", []⟩] ["t", "s"] ["b"]
  exact ⟨h.1, (h.2.1 ⟨"m2", "p", []⟩ "t" "b").mpr (by decide),
    h.2.2.1 (by decide) (by decide) (by decide) ⟨"m2", "p", []⟩ "t" "b"
      (by decide) (by decide) (by decide)⟩

theorem runSingleEvaluation_ok_fields {μ ν β : Type} (env : ExecEnv μ ν β)
    (ts : String) (dur : Rat) (ms : ModelSpec) (mem b : String)
    (r : EvalResult)
    (h : runSingleEvaluation env ts dur ms mem b = .ok r) :
    r.status = "success" ∧ r.timestamp = ts ∧ r.duration_seconds = some dur
    ∧ r.model = ms ∧ r.memory_method = mem ∧ r.benchmark = b
    ∧ r.error = none ∧ (∃ payload, r.results = some payload) := by
  unfold runSingleEvaluation at h
  repeat' split at h
  all_goals first
    | (cases h; exact ⟨rfl, rfl, rfl, rfl, rfl, rfl, rfl, _, rfl⟩)
    | exact absurd h (by simp)

theorem runSingleEvaluation_createModel_error {μ ν β : Type}
    (env : ExecEnv μ ν β) (ts : String) (dur : Rat) (ms : ModelSpec)
    (mem b : String) (e : PyException)
    (h : env.createModel ms = .error e) :
    runSingleEvaluation env ts dur ms mem b = .error e := by
  unfold runSingleEvaluation
  rw [h]

theorem runSingleWithErrorHandling_of_error {μ ν β : Type}
    (env : ExecEnv μ ν β) (ts te : String) (dur : Rat) (ms : ModelSpec)
    (mem b : String) (e : PyException)
    (h : runSingleEvaluation env ts dur ms mem b = .error e) :
    runSingleWithErrorHandling env ts te dur ms mem b =
      createErrorResult te ms mem b
        ⟨ms.name, ms.provider, mem, b, e.type, e.message⟩ := by
  unfold runSingleWithErrorHandling
  rw [h]

theorem runSingleWithErrorHandling_status {μ ν β : Type}
    (env : ExecEnv μ ν β) (ts te : String) (dur : Rat) (ms : ModelSpec)
    (mem b : String) :
    (runSingleWithErrorHandling env ts te dur ms mem b).status =
      (if (runSingleEvaluation env ts dur ms mem b).isOk
        then "success" else "error") := by
  unfold runSingleWithErrorHandling
  cases h : runSingleEvaluation env ts dur ms mem b
  · simp [Except.isOk, Except.toBool, createErrorResult]
  · rename_i r
    simp only [Except.isOk, Except.toBool, if_true]
    exact (runSingleEvaluation_ok_fields env ts dur ms mem b r h).1

theorem countP_eq_count_of_unique {α : Type} [DecidableEq α]
    (p : α → Bool) (l : List α) (a : α)
    (h : ∀ x ∈ l, p x = true ↔ x = a) : l.countP p = l.count a := by
  have := List.countP_congr (l := l) (p := p) (q := fun x => x == a)
    (fun x hx => by rw [h x hx, beq_iff_eq])
  exact this

theorem summary_counts_of_plan {μ ν β : Type} (env : ExecEnv μ ν β)
    (ts te now : String) (dur : Rat)
    (plan : List (ModelSpec × String × String)) :
    (generateSummary now (plan.map fun c =>
        runSingleWithErrorHandling env ts te dur c.1 c.2.1 c.2.2)).total_runs
      = plan.length
    ∧ (generateSummary now (plan.map fun c =>
        runSingleWithErrorHandling env ts te dur c.1 c.2.1 c.2.2)).failed_runs
      = plan.countP (fun c =>
          !(runSingleEvaluation env ts dur c.1 c.2.1 c.2.2).isOk)
    ∧ (generateSummary now (plan.map fun c =>
        runSingleWithErrorHandling env ts te dur c.1 c.2.1 c.2.2)).successful_runs
      = plan.countP (fun c =>
          (runSingleEvaluation env ts dur c.1 c.2.1 c.2.2).isOk) := by
  refine ⟨by simp [generateSummary], ?_, ?_⟩
  · show ((plan.map fun c =>
        runSingleWithErrorHandling env ts te dur c.1 c.2.1 c.2.2).filter
          fun r => r.status == "error").length = _
    rw [← List.countP_eq_length_filter, List.countP_map]
    refine List.countP_congr fun c _ => ?_
    rw [Function.comp_apply, runSingleWithErrorHandling_status]
    cases h : (runSingleEvaluation env ts dur c.1 c.2.1 c.2.2).isOk <;> simp
  · show ((plan.map fun c =>
        runSingleWithErrorHandling env ts te dur c.1 c.2.1 c.2.2).filter
          fun r => r.status == "success").length = _
    rw [← List.countP_eq_length_filter, List.countP_map]
    refine List.countP_congr fun c _ => ?_
    rw [Function.comp_apply, runSingleWithErrorHandling_status]
    cases h : (runSingleEvaluation env ts dur c.1 c.2.1 c.2.2).isOk <;> simp

/-- C2: per-combination failure isolation.  Any exception raised
inside the single-run body (model/memory/benchmark instantiation or
`run_benchmark`, all four embedded in `runSingleEvaluation`) is caught
by the failure boundary and becomes an error-status result carrying
the exception kind, message and the combination's model, provider,
memory-method and benchmark names; the batch summary always covers the
whole plan; and when exactly one combination's model instantiation
raises while every other combination succeeds, the summary still has
`total_runs` equal to the plan size, exactly one `error` run, all
other runs `success`, and the results in plan order. -/
theorem error_isolation (μ ν β : Type) (env : ExecEnv μ ν β)
    (ts te sumT : String) (dur : Rat) (orch : Orchestrator) :
    (∀ (ms : ModelSpec) (mem b : String) (e : PyException),
      runSingleEvaluation env ts dur ms mem b = .error e →
      runSingleWithErrorHandling env ts te dur ms mem b =
        createErrorResult te ms mem b
          ⟨ms.name, ms.provider, mem, b, e.type, e.message⟩)
    ∧ (runFullEvaluation env ts te sumT dur orch).total_runs =
        (generateCombinations orch.model_specs orch.memory_methods
          orch.benchmarks).length
    ∧ (runFullEvaluation env ts te sumT dur orch).results =
        (generateCombinations orch.model_specs orch.memory_methods
          orch.benchmarks).map (fun c =>
            runSingleWithErrorHandling env ts te dur c.1 c.2.1 c.2.2)
    ∧ (∀ (c₀ : ModelSpec × String × String) (e : PyException),
        (generateCombinations orch.model_specs orch.memory_methods
          orch.benchmarks).count c₀ = 1 →
        env.createModel c₀.1 = .error e →
        (∀ c ∈ generateCombinations orch.model_specs orch.memory_methods
            orch.benchmarks, c ≠ c₀ →
          (runSingleEvaluation env ts dur c.1 c.2.1 c.2.2).isOk) →
        (runFullEvaluation env ts te sumT dur orch).failed_runs = 1
        ∧ (runFullEvaluation env ts te sumT dur orch).successful_runs =
            (generateCombinations orch.model_specs orch.memory_methods
              orch.benchmarks).length - 1
        ∧ (runSingleWithErrorHandling env ts te dur c₀.1 c₀.2.1 c₀.2.2).status
            = "error"
        ∧ (∀ c ∈ generateCombinations orch.model_specs orch.memory_methods
            orch.benchmarks, c ≠ c₀ →
          (runSingleWithErrorHandling env ts te dur c.1 c.2.1 c.2.2).status
            = "success")) := by
  refine ⟨?_, ?_, rfl, ?_⟩
  · intro ms mem b e h
    exact runSingleWithErrorHandling_of_error env ts te dur ms mem b e h
  · exact (summary_counts_of_plan env ts te sumT dur _).1
  · intro c₀ e hcount hmodel hrest
    have hpipe : runSingleEvaluation env ts dur c₀.1 c₀.2.1 c₀.2.2 = .error e :=
      runSingleEvaluation_createModel_error env ts dur c₀.1 c₀.2.1 c₀.2.2 e hmodel
    have hpred : ∀ c ∈ generateCombinations orch.model_specs
        orch.memory_methods orch.benchmarks,
        (!(runSingleEvaluation env ts dur c.1 c.2.1 c.2.2).isOk) = true ↔
          c = c₀ := by
      intro c hc
      constructor
      · intro hb
        by_contra hne
        have := hrest c hc hne
        rw [this] at hb
        exact absurd hb (by simp)
      · intro hceq
        subst hceq
        rw [hpipe]
        rfl
    have hcount2 : @List.count _ instBEqOfDecidableEq c₀
        (generateCombinations orch.model_specs orch.memory_methods
          orch.benchmarks) = 1 := by
      rw [← count_combination_bridge]
      exact hcount
    have hunf : runFullEvaluation env ts te sumT dur orch =
        generateSummary sumT ((generateCombinations orch.model_specs
          orch.memory_methods orch.benchmarks).map fun c =>
            runSingleWithErrorHandling env ts te dur c.1 c.2.1 c.2.2) := rfl
    have hfail : (runFullEvaluation env ts te sumT dur orch).failed_runs = 1 := by
      rw [hunf, (summary_counts_of_plan env ts te sumT dur _).2.1,
        countP_eq_count_of_unique _ _ c₀ hpred, hcount2]
    refine ⟨hfail, ?_, ?_, ?_⟩
    · have hsum := List.length_eq_countP_add_countP
        (fun c => (runSingleEvaluation env ts dur c.1 c.2.1 c.2.2).isOk)
        (l := generateCombinations orch.model_specs orch.memory_methods
          orch.benchmarks)
      have hnotP : (generateCombinations orch.model_specs orch.memory_methods
          orch.benchmarks).countP (fun c =>
            decide ¬((runSingleEvaluation env ts dur c.1 c.2.1 c.2.2).isOk
              = true)) =
          (generateCombinations orch.model_specs orch.memory_methods
            orch.benchmarks).countP (fun c =>
              !(runSingleEvaluation env ts dur c.1 c.2.1 c.2.2).isOk) :=
        List.countP_congr fun c _ => by
          cases (runSingleEvaluation env ts dur c.1 c.2.1 c.2.2).isOk <;> simp
      rw [hunf, (summary_counts_of_plan env ts te sumT dur _).2.2]
      rw [hnotP, countP_eq_count_of_unique _ _ c₀ hpred, hcount2] at hsum
      omega
    · rw [runSingleWithErrorHandling_status, hpipe]
      rfl
    · intro c hc hne
      rw [runSingleWithErrorHandling_status]
      have := hrest c hc hne
      rw [this]
      rfl

/-- Environment for the `error_isolation` witness: model instantiation
raises exactly for the model named `m1`. -/
def c2Env : ExecEnv Unit Unit Unit :=
  { createModel := fun ms =>
      if ms.name = "m1" then .error ⟨"ValueError", "Model creation failed"⟩
      else .ok ()
    createMemory := fun _ => .ok ()
    createBenchmark := fun _ _ _ => .ok ()
    runBenchmark := fun _ => .ok JValue.null }

/-- Orchestrator state for the `error_isolation` witness: two models,
one memory method, one benchmark. -/
def c2Orch : Orchestrator :=
  { model_specs := [⟨"m1", "p", []⟩, ⟨"m2", "p", []⟩]
    memory_methods := ["truncation"]
    benchmarks := ["bench"]
    concurrent_evaluations := 1 }

/-- Concrete instantiation of `error_isolation`: in a two-combination
plan whose first combination's model instantiation raises, the batch
reports one failed and one successful run. -/
theorem error_isolation_witness :
    (runFullEvaluation c2Env "t0" "t1" "t2" 0 c2Orch).failed_runs = 1
    ∧ (runFullEvaluation c2Env "t0" "t1" "t2" 0 c2Orch).successful_runs =
        (generateCombinations c2Orch.model_specs c2Orch.memory_methods
          c2Orch.benchmarks).length - 1
    ∧ (runSingleWithErrorHandling c2Env "t0" "t1" 0
        (⟨"m1", "p", []⟩ : ModelSpec) "truncation" "bench").status
          = "error" := by
  have h := (error_isolation Unit Unit Unit c2Env "t0" "t1" "t2" 0 c2Orch).2.2.2
    ((⟨"m1", "p", []⟩ : ModelSpec), "truncation", "bench")
    ⟨"ValueError", "Model creation failed"⟩
    (by decide) rfl (by decide)
  exact ⟨h.1, h.2.1, h.2.2.1⟩

/-- C4: the success-rate law.  Both `_generate_summary` and
`ResultsStorage.get_summary` satisfy
`success_rate = successful_runs / total_runs` (with rational division,
under which the empty case `0 / 0` is `0`), and on an empty batch or
empty store the rate is exactly `0` with no division performed (both
functions are total: the code guards the division behind a
non-emptiness test instead of dividing by zero). -/
theorem success_rate_law :
    (∀ (now : String) (results : List EvalResult),
      (generateSummary now results).success_rate =
        ((generateSummary now results).successful_runs : Rat) /
          ((generateSummary now results).total_runs : Rat)
      ∧ (results = [] → (generateSummary now results).success_rate = 0))
    ∧ (∀ db : ResultsStorage,
      (storageGetSummary db).success_rate =
        ((storageGetSummary db).successful_runs : Rat) /
          ((storageGetSummary db).total_runs : Rat)
      ∧ (db.rows = [] → (storageGetSummary db).success_rate = 0))
    ∧ (∀ (μ ν β : Type) (env : ExecEnv μ ν β) (ts te sumT : String)
        (dur : Rat) (orch : Orchestrator),
      (runFullEvaluation env ts te sumT dur orch).success_rate =
        ((runFullEvaluation env ts te sumT dur orch).successful_runs : Rat) /
          ((runFullEvaluation env ts te sumT dur orch).total_runs : Rat)) := by
  have hgen : ∀ (now : String) (results : List EvalResult),
      (generateSummary now results).success_rate =
        ((generateSummary now results).successful_runs : Rat) /
          ((generateSummary now results).total_runs : Rat) := by
    intro now results
    by_cases h : results = []
    · subst h
      simp [generateSummary]
    · simp [generateSummary, h]
  refine ⟨fun now results => ⟨hgen now results, ?_⟩, fun db => ⟨?_, ?_⟩,
    fun μ ν β env ts te sumT dur orch => hgen sumT _⟩
  · intro h
    subst h
    simp [generateSummary]
  · by_cases h : db.rows = []
    · simp [storageGetSummary, h]
    · have hlen : 0 < db.rows.length := List.length_pos.mpr h
      simp [storageGetSummary, hlen]
  · intro h
    simp [storageGetSummary, h]

/-- Concrete instantiation of `success_rate_law` at the empty batch
and the empty store: the rate is `0` and nothing is divided. -/
theorem success_rate_law_witness :
    (generateSummary "t" []).success_rate = 0
    ∧ (storageGetSummary emptyStorage).success_rate = 0 := by
  exact ⟨(success_rate_law.1 "t" []).2 rfl,
    (success_rate_law.2.1 emptyStorage).2 rfl⟩

/-- C5: save/get round trip.  For a result dictionary whose model
entry is a mapping with `name` and `provider`, and whose
memory-method, benchmark, status and results entries are present,
`save_result` inserts a row and returns its fresh identifier, and
`get_result` on that identifier returns a record whose `model_name`,
`model_provider`, `memory_method`, `benchmark`, `status` and
`duration_seconds` equal the corresponding entries of the input, and
whose results payload equals the original structured payload after the
(value-level) serialization round trip.  The `hid` hypothesis is the
store's auto-increment invariant: every existing row's identifier is
below the next identifier (it holds for `emptyStorage` and is
preserved by every `save_result`). -/
theorem save_get_round_trip (db : ResultsStorage) (now : String)
    (r : ResultDict) (n p mm bm st : String) (payload : JValue)
    (hid : ∀ row ∈ db.rows, row.id < db.next_id)
    (hm : r.model = some (.dict (some n) (some p)))
    (hmm : r.memory_method = some mm) (hbm : r.benchmark = some bm)
    (hst : r.status = some st) (hres : r.results = some payload) :
    ∃ db2, save_result db now r = .ok (db.next_id, db2)
      ∧ ∃ rec, get_result db2 db.next_id = some rec
        ∧ rec.model_name = n ∧ rec.model_provider = p
        ∧ rec.memory_method = mm ∧ rec.benchmark = bm
        ∧ rec.status = st ∧ rec.duration_seconds = r.duration_seconds
        ∧ rec.results = payload := by
  refine ⟨⟨db.rows ++ [⟨db.next_id, r.timestamp.getD now, n, p, mm, bm, st,
      r.duration_seconds, payload, db.clock⟩],
    db.next_id + 1, db.clock + 1⟩, ?_, ?_⟩
  · simp [save_result, hm, hmm, hbm, hst, hres]
  · refine ⟨rowToRecord ⟨db.next_id, r.timestamp.getD now, n, p, mm, bm, st,
      r.duration_seconds, payload, db.clock⟩,
      ?_, rfl, rfl, rfl, rfl, rfl, rfl, rfl⟩
    unfold get_result
    rw [List.find?_append]
    have h1 : db.rows.find? (fun row => row.id == db.next_id) = none := by
      rw [List.find?_eq_none]
      intro x hx
      have := hid x hx
      simp
      omega
    rw [h1]
    simp

/-- Concrete instantiation of `save_get_round_trip` on the empty
store. -/
theorem save_get_round_trip_witness :
    ∃ db2, save_result emptyStorage "t0"
        { timestamp := some "t1"
          model := some (.dict (some "llama") (some "ollama"))
          memory_method := some "truncation"
          benchmark := some "nestful"
          status := some "success"
          duration_seconds := some 2
          results := some (JValue.obj [("score", JValue.int 7)]) } =
        .ok (emptyStorage.next_id, db2)
      ∧ ∃ rec, get_result db2 emptyStorage.next_id = some rec
        ∧ rec.model_name = "llama" ∧ rec.model_provider = "ollama"
        ∧ rec.memory_method = "truncation" ∧ rec.benchmark = "nestful"
        ∧ rec.status = "success"
        ∧ rec.duration_seconds =
            ({ timestamp := some "t1"
               model := some (.dict (some "llama") (some "ollama"))
               memory_method := some "truncation"
               benchmark := some "nestful"
               status := some "success"
               duration_seconds := some 2
               results := some (JValue.obj [("score", JValue.int 7)]) }
              : ResultDict).duration_seconds
        ∧ rec.results = JValue.obj [("score", JValue.int 7)] :=
  save_get_round_trip emptyStorage "t0" _ "llama" "ollama" "truncation"
    "nestful" "success" (JValue.obj [("score", JValue.int 7)])
    (fun row hrow => absurd hrow (List.not_mem_nil row))
    rfl rfl rfl rfl rfl

/-- Input for the C6 counterexample: one minimal result whose model
entry is a non-mapping value. -/
def c6Input : ResultDict :=
  { timestamp := none, model := some (.nonDict "m"), memory_method := none,
    benchmark := none, status := none, duration_seconds := none,
    results := none }

/-- The store holding exactly the row `save_result` inserts for
`c6Input` on the empty store. -/
def c6Db : ResultsStorage :=
  { rows := [⟨1, "t0", "m", "unknown", "unknown", "unknown", "unknown",
      none, JValue.obj [], 0⟩],
    next_id := 2, clock := 1 }

/-- C6 counterexample: `query_results` with an explicit `limit=0` on a
store holding one row returns that row instead of at most zero rows —
Python's `if limit:` treats `0` as falsy and never emits the `LIMIT`
clause, so a given limit of `0` does not truncate. -/
theorem query_limit_zero_counterexample :
    save_result emptyStorage "t0" c6Input = .ok (1, c6Db)
    ∧ (query_results c6Db none none none none none (some 0)).length = 1 :=
  ⟨rfl, rfl⟩

/-- C6 (amended): `query_results` returns exactly the stored rows
matching every filter that is provided as a non-empty string (logical
AND); an omitted (`none`) or empty-string filter imposes no
constraint; the output is ordered newest first by the store-assigned
creation time (given the store invariant that rows are in creation
order); and a *positive* limit truncates to at most that many records,
while a zero (falsy in Python) or negative (unlimited in SQLite) limit
does not truncate. -/
theorem query_results_ok (db : ResultsStorage)
    (mn mp mm bm st : Option String) :
    (∀ rec, rec ∈ query_results db mn mp mm bm st none ↔
      ∃ row ∈ db.rows, rowMatches mn mp mm bm st row = true
        ∧ rec = rowToRecord row)
    ∧ (∀ s v : String, filterOk none v = true
        ∧ (s ≠ "" → (filterOk (some s) v = true ↔ v = s)))
    ∧ (db.rows.Pairwise (fun a b => a.created_at < b.created_at) →
        (query_results db mn mp mm bm st none).Pairwise
          (fun a b => b.created_at < a.created_at))
    ∧ (∀ k : Int, 0 < k →
        query_results db mn mp mm bm st (some k) =
          (query_results db mn mp mm bm st none).take k.toNat
        ∧ (query_results db mn mp mm bm st (some k)).length ≤ k.toNat)
    ∧ (∀ k : Int, k ≤ 0 →
        query_results db mn mp mm bm st (some k) =
          query_results db mn mp mm bm st none) := by
  refine ⟨?_, ?_, ?_, ?_, ?_⟩
  · intro rec
    simp only [query_results, List.mem_map, List.mem_reverse,
      List.mem_filter]
    constructor
    · rintro ⟨row, ⟨hrow, hmatch⟩, hrec⟩
      exact ⟨row, hrow, hmatch, hrec.symm⟩
    · rintro ⟨row, hrow, hmatch, hrec⟩
      exact ⟨row, ⟨hrow, hmatch⟩, hrec.symm⟩
  · intro s v
    refine ⟨rfl, fun hs => ?_⟩
    have hse : s.isEmpty = false := by
      cases hcon : s.isEmpty
      · rfl
      · exact absurd ((String.isEmpty_iff s).mp hcon) hs
    simp [filterOk, hse]
  · intro hsorted
    simp only [query_results]
    rw [List.pairwise_map, List.pairwise_reverse]
    exact (hsorted.filter (rowMatches mn mp mm bm st)).imp fun h => h
  · intro k hk
    have hk2 : ¬ k ≤ 0 := by omega
    constructor
    · simp only [query_results, hk2, if_false, List.map_take]
    · simp only [query_results, hk2, if_false, List.map_take]
      exact (List.length_take_le _ _).trans (Nat.le_refl _)
  · intro k hk
    simp only [query_results, hk, if_true]

/-- Concrete instantiation of `query_results_ok` on a one-row store:
a provided non-empty filter constrains to equality, the output is
newest-first sorted, a positive limit bounds the length, and a
negative limit does not truncate. -/
theorem query_results_ok_witness :
    (filterOk (some "m") "m" = true ↔ "m" = "m")
    ∧ (query_results c6Db none none none none none none).Pairwise
        (fun a b => b.created_at < a.created_at)
    ∧ (query_results c6Db none none none none none (some 1)).length ≤
        (1 : Int).toNat
    ∧ query_results c6Db none none none none none (some (-3)) =
        query_results c6Db none none none none none none := by
  have h := query_results_ok c6Db none none none none none
  exact ⟨(h.2.1 "m" "m").2 (by decide),
    h.2.2.1 (by simp [c6Db]),
    (h.2.2.2.1 1 (by omega)).2,
    h.2.2.2.2 (-3) (by omega)⟩

/-- The per-provider condition `_parse_model_specs` enforces: a
mapping provider section must have `enabled_models ⊆ models`
(non-mapping sections are skipped, hence unconstrained). -/
def providerValid : String × ProviderEntry → Prop :=
  fun pe =>
    match pe.2 with
    | .nonDict => True
    | .dict c => ∀ m ∈ c.enabled_models, m ∈ c.models

/-- A provider entry that actually contributes enabled models: a
mapping section with a non-empty `enabled_models` list. -/
def providerHasEnabled : String × ProviderEntry → Prop :=
  fun pe =>
    match pe.2 with
    | .nonDict => False
    | .dict c => c.enabled_models ≠ []

theorem parseProviders_isOk_iff (ps : List (String × ProviderEntry)) :
    (parseProviders ps).isOk = true ↔ ∀ pe ∈ ps, providerValid pe := by
  induction ps with
  | nil => simp [parseProviders, Except.isOk, Except.toBool]
  | cons hd rest ih =>
    obtain ⟨pname, entry⟩ := hd
    cases entry with
    | nonDict =>
      rw [show parseProviders ((pname, ProviderEntry.nonDict) :: rest)
        = parseProviders rest from rfl]
      simp only [List.mem_cons, ih]
      constructor
      · intro h pe hpe
        rcases hpe with hpe | hpe
        · subst hpe
          exact trivial
        · exact h pe hpe
      · intro h pe hpe
        exact h pe (Or.inr hpe)
    | dict c =>
      by_cases hall : c.enabled_models.all (fun m => m ∈ c.models) = true
      · have hvalid : providerValid (pname, ProviderEntry.dict c) := by
          simpa [providerValid, List.all_eq_true] using hall
        rw [show parseProviders ((pname, ProviderEntry.dict c) :: rest)
          = (match parseProviders rest with
             | .error e => .error e
             | .ok restSpecs =>
               .ok ((c.enabled_models.map fun m =>
                 ⟨m, pname, c.extra⟩ : List ModelSpec) ++ restSpecs))
          from by rw [parseProviders]; rw [if_pos hall]]
        cases hpp : parseProviders rest with
        | error e =>
          rw [hpp] at ih
          simp only [List.mem_cons]
          constructor
          · intro h
            exact absurd h (by simp [Except.isOk, Except.toBool])
          · intro h
            have : ∀ pe ∈ rest, providerValid pe :=
              fun pe hpe => h pe (Or.inr hpe)
            rw [← ih] at this
            exact absurd this (by simp [Except.isOk, Except.toBool])
        | ok restSpecs =>
          rw [hpp] at ih
          simp only [List.mem_cons]
          constructor
          · intro _ pe hpe
            rcases hpe with hpe | hpe
            · subst hpe
              exact hvalid
            · exact (ih.mp (by simp [Except.isOk, Except.toBool])) pe hpe
          · intro _
            simp [Except.isOk, Except.toBool]
      · rw [show parseProviders ((pname, ProviderEntry.dict c) :: rest)
          = .error ("Provider \x27" ++ pname ++
              "\x27 has invalid enabled models.")
          from by rw [parseProviders]; rw [if_neg hall]]
        simp only [List.mem_cons]
        constructor
        · intro h
          exact absurd h (by simp [Except.isOk, Except.toBool])
        · intro h
          have := h (pname, ProviderEntry.dict c) (Or.inl rfl)
          rw [providerValid] at this
          exact absurd (by simpa [List.all_eq_true] using this) hall

theorem parseProviders_ok_nil_iff (ps : List (String × ProviderEntry))
    (ms : List ModelSpec) (h : parseProviders ps = .ok ms) :
    ms = [] ↔ ∀ pe ∈ ps, ¬ providerHasEnabled pe := by
  induction ps generalizing ms with
  | nil =>
    rw [parseProviders] at h
    cases h
    simp
  | cons hd rest ih =>
    obtain ⟨pname, entry⟩ := hd
    cases entry with
    | nonDict =>
      rw [show parseProviders ((pname, ProviderEntry.nonDict) :: rest)
        = parseProviders rest from rfl] at h
      rw [ih ms h]
      simp only [List.mem_cons]
      constructor
      · intro hall pe hpe
        rcases hpe with hpe | hpe
        · subst hpe
          simp [providerHasEnabled]
        · exact hall pe hpe
      · intro hall pe hpe
        exact hall pe (Or.inr hpe)
    | dict c =>
      rw [parseProviders] at h
      split at h
      · rename_i hall
        split at h
        · exact absurd h (by simp)
        · rename_i restSpecs hpp
          cases h
          simp only [List.append_eq_nil, List.map_eq_nil_iff, List.mem_cons]
          rw [ih restSpecs hpp]
          constructor
          · rintro ⟨h1, h2⟩ pe hpe
            rcases hpe with hpe | hpe
            · subst hpe
              simp [providerHasEnabled, h1]
            · exact h2 pe hpe
          · intro hall2
            refine ⟨?_, fun pe hpe => hall2 pe (Or.inr hpe)⟩
            have := hall2 (pname, ProviderEntry.dict c) (Or.inl rfl)
            rw [providerHasEnabled] at this
            simpa using this
      · exact absurd h (by simp)

/-- Config for the C7 counterexample: one valid provider with one
enabled model, but explicitly empty `memory_methods` and
`executed_benchmarks` lists. -/
def c7Cfg : Config :=
  ⟨[("p", ProviderEntry.dict ⟨["m1"], ["m1"], []⟩)], some [], some [], none⟩

/-- The orchestrator state `__init__` builds from `c7Cfg`. -/
def c7Orch : Orchestrator :=
  ⟨[⟨"m1", "p", []⟩], [], [], 1⟩

/-- C7 counterexample: orchestrator construction succeeds although
both `memory_methods` and `executed_benchmarks` are empty — `__init__`
reads them with `.get(...)` defaults and never validates that they are
non-empty, so it does not raise as the claim asserts. -/
theorem orchestrator_validation_counterexample :
    orchestratorInit c7Cfg = .ok c7Orch := rfl

theorem orchestratorInit_isOk_eq (cfg : Config) :
    (orchestratorInit cfg).isOk = (parseModelSpecs cfg).isOk := by
  unfold orchestratorInit
  cases parseModelSpecs cfg <;> rfl

/-- C7 (amended): orchestrator construction validates only the
provider configuration, before any run starts: it fails exactly when
`providers` is empty, when some mapping provider has an enabled model
outside its available models, or when no mapping provider has a
non-empty `enabled_models`.  Empty `memory_methods` or
`executed_benchmarks` lists are *not* validated: construction succeeds
and stores them as given (yielding an empty run plan later). -/
theorem orchestrator_validation_ok (cfg : Config) :
    ((orchestratorInit cfg).isOk = true ↔
      cfg.providers ≠ []
      ∧ (∀ pe ∈ cfg.providers, providerValid pe)
      ∧ (∃ pe ∈ cfg.providers, providerHasEnabled pe))
    ∧ (∀ orch, orchestratorInit cfg = .ok orch →
        orch.memory_methods = cfg.memory_methods.getD ["truncation"]
        ∧ orch.benchmarks = cfg.executed_benchmarks.getD []) := by
  constructor
  · rw [orchestratorInit_isOk_eq]
    unfold parseModelSpecs
    by_cases hP : cfg.providers.isEmpty = true
    · rw [if_pos hP]
      have hnil : cfg.providers = [] := by
        cases hc : cfg.providers with
        | nil => rfl
        | cons a t => rw [hc] at hP; exact absurd hP (by simp)
      simp [hnil, Except.isOk, Except.toBool]
    · rw [if_neg hP]
      have hPne : cfg.providers ≠ [] := by
        intro hnil
        exact hP (by simp [hnil])
      cases hpp : parseProviders cfg.providers with
      | error e =>
        dsimp only
        constructor
        · intro h
          exact absurd h (by simp [Except.isOk, Except.toBool])
        · rintro ⟨-, hvalid, -⟩
          have h2 := (parseProviders_isOk_iff cfg.providers).mpr hvalid
          rw [hpp] at h2
          exact absurd h2 (by simp [Except.isOk, Except.toBool])
      | ok ms =>
        dsimp only
        by_cases hms : ms.isEmpty = true
        · rw [if_pos hms]
          have hnil : ms = [] := by
            cases hc : ms with
            | nil => rfl
            | cons a t => rw [hc] at hms; exact absurd hms (by simp)
          constructor
          · intro h
            exact absurd h (by simp [Except.isOk, Except.toBool])
          · rintro ⟨-, -, pe, hpe, hen⟩
            exact absurd hen
              ((parseProviders_ok_nil_iff _ ms hpp).mp hnil pe hpe)
        · rw [if_neg hms]
          constructor
          · intro _
            refine ⟨hPne, ?_, ?_⟩
            · rw [← parseProviders_isOk_iff, hpp]
              rfl
            · by_contra hno
              push_neg at hno
              exact hms
                (by simp [(parseProviders_ok_nil_iff _ ms hpp).mpr hno])
          · intro _
            rfl
  · intro orch h
    unfold orchestratorInit at h
    split at h
    · exact absurd h (by simp)
    · cases h
      exact ⟨rfl, rfl⟩

/-- Concrete instantiation of `orchestrator_validation_ok` at the
counterexample configuration: construction succeeds and the stored
(empty) memory-method list is exactly the configured one. -/
theorem orchestrator_validation_ok_witness :
    (orchestratorInit c7Cfg).isOk = true
    ∧ c7Orch.memory_methods = c7Cfg.memory_methods.getD ["truncation"] := by
  have h := orchestrator_validation_ok c7Cfg
  refine ⟨h.1.mpr ⟨?_, ?_, ?_⟩, (h.2 c7Orch rfl).1⟩
  · intro hnil
    simp [c7Cfg] at hnil
  · intro pe hpe
    have hpe2 : pe = ("p", ProviderEntry.dict ⟨["m1"], ["m1"], []⟩) := by
      simpa [c7Cfg] using hpe
    subst hpe2
    rw [providerValid]
    intro m hm
    exact hm
  · refine ⟨("p", ProviderEntry.dict ⟨["m1"], ["m1"], []⟩),
      by simp [c7Cfg], ?_⟩
    rw [providerHasEnabled]
    simp

/-- Input for the C8 counterexample: the model entry is a mapping that
lacks the `name` key (the `provider` key is present). -/
def c8Input : ResultDict :=
  { timestamp := some "t", model := some (.dict none (some "prov")),
    memory_method := some "truncation", benchmark := some "nestful",
    status := some "success", duration_seconds := some 1,
    results := none }

/-- C8 counterexample: for a model-info mapping lacking the `name`
key, `save_result` does not substitute `"unknown"` — it computes
`model_info.get("name") = None`, the `NOT NULL` `model_name` column
rejects the insert, and `save_result` re-raises instead of returning a
new identifier. -/
theorem save_result_missing_name_counterexample :
    save_result emptyStorage "now" c8Input =
      .error "NOT NULL constraint failed: evaluation_runs.model_name" := rfl

/-- C8 (amended): `save_result`'s defensive extraction is asymmetric.
The provider column does fall back to `"unknown"` whenever the
model-info mapping lacks `provider`, is not a mapping, or is absent;
but the name column falls back only for a *non-mapping* model-info
(stored as its `str()` rendering) — a mapping without `name`, or an
absent model entry, binds `None` to the `NOT NULL` `model_name` column
and `save_result` raises instead of inserting. -/
theorem save_result_model_fallbacks (db : ResultsStorage) (now : String)
    (r : ResultDict) :
    (r.model = none →
      save_result db now r =
        .error "NOT NULL constraint failed: evaluation_runs.model_name")
    ∧ (∀ p, r.model = some (.dict none p) →
      save_result db now r =
        .error "NOT NULL constraint failed: evaluation_runs.model_name")
    ∧ (∀ (n : String) (popt : Option String),
        r.model = some (.dict (some n) popt) →
        ∃ row, save_result db now r =
            .ok (db.next_id, ⟨db.rows ++ [row], db.next_id + 1, db.clock + 1⟩)
          ∧ row.model_name = n ∧ row.model_provider = popt.getD "unknown")
    ∧ (∀ s : String, r.model = some (.nonDict s) →
        ∃ row, save_result db now r =
            .ok (db.next_id, ⟨db.rows ++ [row], db.next_id + 1, db.clock + 1⟩)
          ∧ row.model_name = s ∧ row.model_provider = "unknown") := by
  refine ⟨?_, ?_, ?_, ?_⟩
  · intro h
    simp [save_result, h]
  · intro p h
    simp [save_result, h]
  · intro n popt h
    exact ⟨⟨db.next_id, r.timestamp.getD now, n, popt.getD "unknown",
      r.memory_method.getD "unknown", r.benchmark.getD "unknown",
      r.status.getD "unknown", r.duration_seconds,
      r.results.getD (JValue.obj []), db.clock⟩,
      by simp [save_result, h], rfl, rfl⟩
  · intro s h
    exact ⟨⟨db.next_id, r.timestamp.getD now, s, "unknown",
      r.memory_method.getD "unknown", r.benchmark.getD "unknown",
      r.status.getD "unknown", r.duration_seconds,
      r.results.getD (JValue.obj []), db.clock⟩,
      by simp [save_result, h], rfl, rfl⟩

/-- Concrete instantiation of `save_result_model_fallbacks`: an absent
model entry raises; a non-mapping model entry is stored with its
`str()` as the name and `"unknown"` as the provider. -/
theorem save_result_model_fallbacks_witness :
    save_result emptyStorage "now"
        ⟨some "t", none, none, none, none, none, none⟩ =
      .error "NOT NULL constraint failed: evaluation_runs.model_name"
    ∧ ∃ row, save_result emptyStorage "now"
          ⟨some "t", some (.nonDict "raw"), none, none, none, none, none⟩ =
        .ok (emptyStorage.next_id,
          ⟨emptyStorage.rows ++ [row], emptyStorage.next_id + 1,
            emptyStorage.clock + 1⟩)
      ∧ row.model_name = "raw" ∧ row.model_provider = "unknown" :=
  ⟨(save_result_model_fallbacks emptyStorage "now"
      ⟨some "t", none, none, none, none, none, none⟩).1 rfl,
    (save_result_model_fallbacks emptyStorage "now"
      ⟨some "t", some (.nonDict "raw"), none, none, none, none, none⟩).2.2.2
      "raw" rfl⟩

theorem charsOccur_nil_needle : ∀ l : List Char, charsOccur [] l = true
  | [] => rfl
  | _ :: rest => by
    rw [charsOccur]
    simp [charsLeadWith]

theorem charsLeadWith_mono : ∀ (n h t : List Char),
    charsLeadWith n h = true → charsLeadWith n (h ++ t) = true
  | [], _, _ => fun _ => rfl
  | a :: as, [], t => fun h => by cases h
  | a :: as, b :: bs, t => fun hl => by
    rw [charsLeadWith] at hl
    rw [List.cons_append, charsLeadWith]
    rcases Bool.and_eq_true_iff.mp hl with ⟨h1, h2⟩
    rw [h1, charsLeadWith_mono as bs t h2]
    rfl

theorem charsLeadWith_self : ∀ (n t : List Char),
    charsLeadWith n (n ++ t) = true
  | [], _ => rfl
  | a :: as, t => by
    rw [List.cons_append, charsLeadWith, charsLeadWith_self as t]
    simp

theorem charsOccur_of_lead (n h : List Char)
    (hl : charsLeadWith n h = true) : charsOccur n h = true := by
  cases h with
  | nil => exact hl
  | cons c rest =>
    rw [charsOccur, hl]
    rfl

theorem charsOccur_append_right (n t : List Char) :
    ∀ h : List Char, charsOccur n t = true → charsOccur n (h ++ t) = true
  | [], ho => ho
  | c :: h2, ho => by
    rw [List.cons_append, charsOccur,
      charsOccur_append_right n t h2 ho]
    simp

theorem charsOccur_append_left (n : List Char) :
    ∀ a b : List Char, charsOccur n a = true → charsOccur n (a ++ b) = true
  | [], b, ho => by
    have hnil : n = [] := by
      cases n with
      | nil => rfl
      | cons c ncs => exact absurd ho (by rw [charsOccur, charsLeadWith]; simp)
    rw [hnil]
    exact charsOccur_nil_needle b
  | c :: a2, b, ho => by
    rw [charsOccur] at ho
    rw [List.cons_append, charsOccur]
    rcases Bool.or_eq_true_iff.mp ho with h1 | h2
    · have hm := charsLeadWith_mono n (c :: a2) b h1
      rw [List.cons_append] at hm
      rw [hm]
      rfl
    · rw [charsOccur_append_left n a2 b h2]
      simp

theorem charsOccur_self_append (n t : List Char) :
    charsOccur n (n ++ t) = true :=
  charsOccur_of_lead n (n ++ t) (charsLeadWith_self n t)

theorem strOccurs_append_three (n pre post : String) :
    strOccurs n (pre ++ n ++ post) = true := by
  unfold strOccurs
  rw [String.data_append, String.data_append, List.append_assoc]
  exact charsOccur_append_right n.data (n.data ++ post.data) pre.data
    (charsOccur_self_append n.data post.data)

theorem pyStrListReprCore_occurs (n : String) :
    ∀ names : List String, n ∈ names →
      charsOccur n.data (pyStrListReprCore names).data = true := by
  intro names
  induction names with
  | nil => intro h; exact absurd h (List.not_mem_nil n)
  | cons s rest ih =>
    intro hmem
    cases rest with
    | nil =>
      have hn : n = s := by
        rcases List.mem_cons.mp hmem with h | h
        · exact h
        · exact absurd h (List.not_mem_nil n)
      subst hn
      have hdef : pyStrListReprCore [n] = "\x27" ++ n ++ "\x27" := by
        rw [pyStrListReprCore]
      rw [hdef]
      have := strOccurs_append_three n "\x27" "\x27"
      unfold strOccurs at this
      exact this
    | cons s2 rest2 =>
      rcases List.mem_cons.mp hmem with h | h
      · subst h
        have hdef : pyStrListReprCore (n :: s2 :: rest2)
            = "\x27" ++ n ++ "\x27, " ++ pyStrListReprCore (s2 :: rest2) := by
          rw [pyStrListReprCore]
        rw [hdef]
        rw [String.data_append, String.data_append, String.data_append]
        rw [List.append_assoc, List.append_assoc]
        exact charsOccur_append_right n.data _ _
          (charsOccur_self_append n.data _)
      · have hdef : pyStrListReprCore (s :: s2 :: rest2)
            = "\x27" ++ s ++ "\x27, " ++ pyStrListReprCore (s2 :: rest2) := by
          rw [pyStrListReprCore]
        rw [hdef]
        rw [String.data_append]
        exact charsOccur_append_right n.data _ _ (ih h)

theorem dictSet_lookup_self {φ : Type} (k : String) (v : φ) :
    ∀ d : List (String × φ), (dictSet d k v).lookup k = some v := by
  intro d
  induction d with
  | nil => simp [dictSet, List.lookup]
  | cons hd rest ih =>
    obtain ⟨k0, v0⟩ := hd
    by_cases h : k0 = k
    · simp [dictSet, h, List.lookup]
    · have hk : ¬ k = k0 := fun hh => h hh.symm
      have hb : (k == k0) = false := by
        cases hcase : k == k0
        · rfl
        · exact absurd (eq_of_beq hcase) hk
      simp [dictSet, h, List.lookup, hb, ih]

/-- The memory-method registry's initial class-level dictionary
(`MemoryRegistry._methods`); factory classes are opaque here, embedded
by class name. -/
def memoryMethodsDefault : List (String × String) :=
  [("truncation", "TruncationMemory")]

/-- The model registry's initial provider dictionary
(`ModelRegistry._providers`). -/
def modelProvidersDefault : List (String × String) :=
  [("ollama", "OllamaModel"), ("openrouter", "OpenRouterModel")]

/-- C9 counterexample: with the default memory registry (holding
`truncation`), `create_method("nope")` raises
`"Memory method 'nope' not registered"` — a message in which the
registered name `truncation` does not occur, so this registry's
not-registered error does not list the known registered names as the
claim asserts (the same shape holds for the benchmark registry). -/
theorem registry_message_counterexample :
    memoryCreateMethod memoryMethodsDefault "nope" =
      .error "Memory method \x27nope\x27 not registered"
    ∧ "truncation" ∈ memoryMethodsDefault.map (fun p => p.1)
    ∧ strOccurs "truncation"
        "Memory method \x27nope\x27 not registered" = false :=
  ⟨rfl, by decide, by decide⟩

/-- C9 (amended): in all three registries `register` overwrites any
existing registration (a subsequent `create` for that name yields the
newly registered factory), and `create` on an absent name fails with a
not-registered error; but only the model-provider registry's message
lists the known registered names — the memory-method and benchmark
registries' messages name only the missing entry. -/
theorem registry_create_register_ok (φ : Type) (d : List (String × φ))
    (k : String) (f : φ) :
    memoryCreateMethod (memoryRegisterMethod d k f) k = .ok f
    ∧ modelCreateModel (modelRegisterProvider d k f) k = .ok f
    ∧ benchmarkCreateBenchmark (benchmarkRegisterBenchmark d k f) k = .ok f
    ∧ (d.lookup k = none →
        memoryCreateMethod d k =
          .error ("Memory method \x27" ++ k ++ "\x27 not registered")
        ∧ benchmarkCreateBenchmark d k =
          .error ("Benchmark \x27" ++ k ++ "\x27 not registered")
        ∧ ∃ msg, modelCreateModel d k = .error msg
          ∧ ∀ n ∈ d.map (fun p => p.1), strOccurs n msg = true) := by
  refine ⟨?_, ?_, ?_, ?_⟩
  · unfold memoryCreateMethod memoryRegisterMethod
    rw [dictSet_lookup_self]
  · unfold modelCreateModel modelRegisterProvider
    rw [dictSet_lookup_self]
  · unfold benchmarkCreateBenchmark benchmarkRegisterBenchmark
    rw [dictSet_lookup_self]
  · intro hnone
    refine ⟨by unfold memoryCreateMethod; rw [hnone],
      by unfold benchmarkCreateBenchmark; rw [hnone],
      "Provider \x27" ++ k ++ "\x27 is not registered. Available: "
        ++ pyStrListRepr (d.map fun p => p.1),
      by unfold modelCreateModel; rw [hnone], ?_⟩
    intro n hn
    unfold strOccurs
    rw [String.data_append]
    refine charsOccur_append_right n.data _ _ ?_
    unfold pyStrListRepr
    rw [String.data_append, String.data_append, List.append_assoc]
    refine charsOccur_append_right n.data _ _ ?_
    exact charsOccur_append_left n.data _ _
      (pyStrListReprCore_occurs n _ hn)

/-- Concrete instantiation of `registry_create_register_ok`:
re-registering `truncation` overwrites the old factory, and the
model registry's not-registered message contains each registered
provider name. -/
theorem registry_create_register_ok_witness :
    memoryCreateMethod
        (memoryRegisterMethod memoryMethodsDefault "truncation" "Redefined")
        "truncation" = .ok "Redefined"
    ∧ ∃ msg, modelCreateModel modelProvidersDefault "nope" = .error msg
      ∧ ∀ n ∈ modelProvidersDefault.map (fun p => p.1),
          strOccurs n msg = true := by
  have h := registry_create_register_ok String memoryMethodsDefault
    "truncation" "Redefined"
  have h2 := registry_create_register_ok String modelProvidersDefault
    "nope" "X"
  exact ⟨h.1, (h2.2.2.2 rfl).2.2⟩

/-- Environment for C10: model instantiation always raises. -/
def c10Env : ExecEnv Unit Unit Unit :=
  { createModel := fun _ => .error ⟨"ValueError", "Model creation failed"⟩
    createMemory := fun _ => .ok ()
    createBenchmark := fun _ _ _ => .ok ()
    runBenchmark := fun _ => .ok JValue.null }

/-- Environment for C10's success side: every step succeeds. -/
def c10EnvOk : ExecEnv Unit Unit Unit :=
  { createModel := fun _ => .ok ()
    createMemory := fun _ => .ok ()
    createBenchmark := fun _ _ _ => .ok ()
    runBenchmark := fun _ => .ok JValue.null }

/-- C10 counterexample: an error-status `EvaluationResult` produced by
the orchestrator's failure boundary has no `duration_seconds` key —
`_create_error_result` builds the dictionary without it (and stamps it
with the error-creation time, not the run's start time), so not every
orchestrator result carries a duration as the claim asserts. -/
theorem error_result_no_duration_counterexample :
    (runSingleWithErrorHandling c10Env "t0" "t1" 5
      (⟨"m", "prov", []⟩ : ModelSpec) "truncation" "bench").status = "error"
    ∧ (runSingleWithErrorHandling c10Env "t0" "t1" 5
      (⟨"m", "prov", []⟩ : ModelSpec) "truncation" "bench").duration_seconds
        = none :=
  ⟨rfl, rfl⟩

/-- C10 (amended): a success-status result carries the run's start
timestamp, its duration in seconds, the embedded ModelSpec, the
memory-method name, the benchmark name and the `success` status tag;
an error-status result carries the embedded ModelSpec, the names, the
`error` status tag and the error context, but its timestamp is taken
when the error result is created and it has no duration field. -/
theorem eval_result_fields (μ ν β : Type) (env : ExecEnv μ ν β)
    (ts te : String) (dur : Rat) (ms : ModelSpec) (mem b : String) :
    ((runSingleEvaluation env ts dur ms mem b).isOk = true →
      ∃ r, runSingleEvaluation env ts dur ms mem b = .ok r
        ∧ runSingleWithErrorHandling env ts te dur ms mem b = r
        ∧ r.timestamp = ts ∧ r.duration_seconds = some dur
        ∧ r.model = ms ∧ r.memory_method = mem ∧ r.benchmark = b
        ∧ r.status = "success")
    ∧ (∀ e, runSingleEvaluation env ts dur ms mem b = .error e →
        (runSingleWithErrorHandling env ts te dur ms mem b).timestamp = te
        ∧ (runSingleWithErrorHandling env ts te dur ms mem b).duration_seconds
            = none
        ∧ (runSingleWithErrorHandling env ts te dur ms mem b).model = ms
        ∧ (runSingleWithErrorHandling env ts te dur ms mem b).memory_method
            = mem
        ∧ (runSingleWithErrorHandling env ts te dur ms mem b).benchmark = b
        ∧ (runSingleWithErrorHandling env ts te dur ms mem b).status = "error"
        ∧ (runSingleWithErrorHandling env ts te dur ms mem b).error =
            some ⟨ms.name, ms.provider, mem, b, e.type, e.message⟩) := by
  constructor
  · intro hok
    cases hp : runSingleEvaluation env ts dur ms mem b with
    | error e =>
      rw [hp] at hok
      exact absurd hok (by simp [Except.isOk, Except.toBool])
    | ok r =>
      have hf := runSingleEvaluation_ok_fields env ts dur ms mem b r hp
      refine ⟨r, rfl, ?_, hf.2.1, hf.2.2.1, hf.2.2.2.1, hf.2.2.2.2.1,
        hf.2.2.2.2.2.1, hf.1⟩
      unfold runSingleWithErrorHandling
      rw [hp]
  · intro e he
    rw [runSingleWithErrorHandling_of_error env ts te dur ms mem b e he]
    exact ⟨rfl, rfl, rfl, rfl, rfl, rfl, rfl⟩

/-- Concrete instantiation of `eval_result_fields` on an all-success
environment and an all-failing environment. -/
theorem eval_result_fields_witness :
    (∃ r, runSingleEvaluation c10EnvOk "t0" 5
        (⟨"m", "prov", []⟩ : ModelSpec) "truncation" "bench" = .ok r
      ∧ runSingleWithErrorHandling c10EnvOk "t0" "t1" 5
          (⟨"m", "prov", []⟩ : ModelSpec) "truncation" "bench" = r
      ∧ r.timestamp = "t0" ∧ r.duration_seconds = some 5
      ∧ r.model = (⟨"m", "prov", []⟩ : ModelSpec)
      ∧ r.memory_method = "truncation" ∧ r.benchmark = "bench"
      ∧ r.status = "success")
    ∧ (runSingleWithErrorHandling c10Env "t0" "t1" 5
        (⟨"m", "prov", []⟩ : ModelSpec) "truncation" "bench").error =
      some ⟨"m", "prov", "truncation", "bench", "ValueError",
        "Model creation failed"⟩ :=
  ⟨(eval_result_fields Unit Unit Unit c10EnvOk "t0" "t1" 5
      ⟨"m", "prov", []⟩ "truncation" "bench").1 rfl,
    ((eval_result_fields Unit Unit Unit c10Env "t0" "t1" 5
      ⟨"m", "prov", []⟩ "truncation" "bench").2
      ⟨"ValueError", "Model creation failed"⟩ rfl).2.2.2.2.2.2⟩
